import Mathlib

/-!
Verification of the `ci_diff_helper` CI-configuration library
(`ci_diff_helper/kokoro.py` and `ci_diff_helper/appveyor.py`).

The process environment is modelled as an association list of
variable-name/value pairs.  Pure module-level helpers of the Python source
become Lean functions; the memoizing `Kokoro` / `AppVeyor` configuration
objects become explicit state records with one accessor function per
`@property`, each returning the result together with the updated cache
state (Python exceptions become `Except` errors, and cache mutations that
happen before a raise are kept, as in Python).
-/

/-- A process environment: an association list from variable names to
values (first binding wins, like a dict rendered as a list). -/
abbrev Env : Type := List (String × String)

/-- `os.environ.get(k)` / dict lookup. -/
def Env.get? (e : Env) (k : String) : Option String :=
  List.lookup k e

/-- `k in os.environ.keys()`. -/
def Env.containsKey (e : Env) (k : String) : Bool :=
  (Env.get? e k).isSome

/-- `os.getenv(k, '')`. -/
def Env.getD (e : Env) (k : String) : String :=
  (Env.get? e k).getD ""

/-! Environment-variable names.  Modelled from the spec: the
`ci_diff_helper/environment_vars.py` module is not under `src/`; the names
below are taken from the module docstrings in `kokoro.py` / the spec's §6
variable table.  Only their distinctness matters for the claims. -/

/-- Modelled from the spec: the Gerrit branch variable
(`env.KOKORO_GERRIT_BRANCH`). -/
def KOKORO_GERRIT_BRANCH : String := "GERRIT_BRANCH"

/-- Modelled from the spec: the Gerrit commit-marker (GOB commit) variable
(`env.KOKORO_GOB_COMMIT`). -/
def KOKORO_GOB_COMMIT : String := "KOKORO_GOB_COMMIT"

/-- Modelled from the spec: the GitHub-style PR-number variable
(`env.KOKORO_GITHUB_PULL_REQUEST_NUMBER`). -/
def KOKORO_GITHUB_PULL_REQUEST_NUMBER : String :=
  "KOKORO_GITHUB_PULL_REQUEST_NUMBER"

/-- Modelled from the spec: the Gerrit-style change-number variable
(`env.KOKORO_GERRIT_CHANGE_NUMBER`). -/
def KOKORO_GERRIT_CHANGE_NUMBER : String := "GERRIT_CHANGE_NUMBER"

/-- Modelled from the spec: the pull-request URL variable
(`env.KOKORO_GITHUB_PULL_REQUEST_URL`). -/
def KOKORO_GITHUB_PULL_REQUEST_URL : String :=
  "KOKORO_GITHUB_PULL_REQUEST_URL"

/-- Modelled from the spec: the commit URL variable
(`env.KOKORO_GITHUB_COMMIT_URL`). -/
def KOKORO_GITHUB_COMMIT_URL : String := "KOKORO_GITHUB_COMMIT_URL"

/-- Modelled from the spec: the AppVeyor repo-provider variable
(`env.APPVEYOR_REPO_ENV`). -/
def APPVEYOR_REPO_ENV : String := "APPVEYOR_REPO_PROVIDER"

/-! Model of Python's `int(string)` (base 10): surrounding whitespace is
ignored, an optional single `+`/`-` sign, then a non-empty run of ASCII
digits.  (CPython's numeric-separator underscores and Unicode digits are
not modelled.)  Returns `none` where `int(...)` raises `ValueError`. -/

/-- Digit run to a natural number. -/
def digitsToNat (cs : List Char) : Nat :=
  cs.foldl (fun n c => 10 * n + (c.toNat - '0'.toNat)) 0

/-- Parse a non-empty all-digit character list. -/
def parseDigits (cs : List Char) : Option Nat :=
  if cs ≠ [] ∧ cs.all Char.isDigit then some (digitsToNat cs) else none

/-- Whitespace stripping, `s.strip()`, on character lists (ASCII
whitespace). -/
def pyStrip (cs : List Char) : List Char :=
  ((cs.dropWhile Char.isWhitespace).reverse.dropWhile Char.isWhitespace).reverse

/-- Model of Python `int(s)` for base 10 (see section comment). -/
def parsePyInt (s : String) : Option Int :=
  match pyStrip s.data with
  | '+' :: rest => (parseDigits rest).map Int.ofNat
  | '-' :: rest => (parseDigits rest).map (fun n => -(n : Int))
  | cs => (parseDigits cs).map Int.ofNat

/-! Model of the two `re.sub` calls in `kokoro._repo_url`:
`re.sub(r'/pull/[0-9]+', '', pr_url)` and
`re.sub(r'/commit/.*', '', commit_url)`.  `re.sub` scans left to right,
removing each leftmost non-overlapping match; `[0-9]+` greedily takes a
maximal ASCII-digit run; `.` matches anything except a newline, so `.*`
greedily extends to the next newline or the end of the string. -/

/-- Try to match `/pull/[0-9]+` at the head of the list: on success return
the remainder after the (greedy) match. -/
def matchPullAt (l : List Char) : Option (List Char) :=
  if l.take 6 = '/' :: 'p' :: 'u' :: 'l' :: 'l' :: '/' :: []
      ∧ (l.drop 6).takeWhile Char.isDigit ≠ [] then
    some ((l.drop 6).dropWhile Char.isDigit)
  else
    none

/-- Try to match `/commit/.*` at the head of the list: on success return
the remainder (from the first newline on, or nothing). -/
def matchCommitAt (l : List Char) : Option (List Char) :=
  if l.take 8 = '/' :: 'c' :: 'o' :: 'm' :: 'm' :: 'i' :: 't' :: '/' :: [] then
    some ((l.drop 8).dropWhile (fun c => c ≠ '\n'))
  else
    none

/-- Left-to-right scan removing each leftmost match of `/pull/[0-9]+`.
The `Nat` argument is fuel for structural recursion; every step consumes
at least one character, so fuel `l.length` is always enough. -/
def subPullAux : Nat → List Char → List Char
  | _, [] => []
  | 0, l => l
  | fuel + 1, c :: cs =>
    match matchPullAt (c :: cs) with
    | some rest => subPullAux fuel rest
    | none => c :: subPullAux fuel cs

/-- `re.sub(r'/pull/[0-9]+', '', ·)` on character lists. -/
def subPull (l : List Char) : List Char :=
  subPullAux l.length l

/-- Left-to-right scan removing each leftmost match of `/commit/.*`
(fuelled like `subPullAux`). -/
def subCommitAux : Nat → List Char → List Char
  | _, [] => []
  | 0, l => l
  | fuel + 1, c :: cs =>
    match matchCommitAt (c :: cs) with
    | some rest => subCommitAux fuel rest
    | none => c :: subCommitAux fuel cs

/-- `re.sub(r'/commit/.*', '', ·)` on character lists. -/
def subCommit (l : List Char) : List Char :=
  subCommitAux l.length l

/-- `True` iff no position of the list starts a `/pull/[0-9]+` match. -/
def pullFree : List Char → Bool
  | [] => true
  | c :: cs => (matchPullAt (c :: cs)).isNone && pullFree cs

/-! `kokoro.py` module-level definitions. -/

/-- `kokoro._GITHUB_HOST`. -/
def GITHUB_HOST : String := "github.com"

/-- `kokoro._GITHUB_PREFIX = 'https://{}/'.format(_GITHUB_HOST)`
(renamed: `GITHUB_PFX`). -/
def GITHUB_PFX : String := "https://github.com/"

/-- Python's `sub in s` substring test, on character lists. -/
def containsSub (l pat : List Char) : Bool :=
  match l with
  | [] => pat.isEmpty
  | _ :: tl => pat.isPrefixOf l || containsSub tl pat

/-- `kokoro.KokoroRepoProvider` enum. -/
inductive KokoroRepoProvider where
  | github
  | gerrit
deriving DecidableEq, Repr

/-- A GitHub PR-info payload, as far as the code ever inspects it: a JSON
object whose values are JSON objects with string values
(`payload['base']['sha']` is the only path ever read). -/
abbrev Payload : Type := List (String × List (String × String))

/-- Dict-style two-level lookup `payload[k1][k2]`, `none` on `KeyError`. -/
def Payload.get2 (p : Payload) (k1 k2 : String) : Option String :=
  (List.lookup k1 p).bind (fun inner => List.lookup k2 inner)

/-- The Remote PR-Info Client (`_github.pr_info`), an external
collaborator: given the slug (as the `Kokoro` object stores it, possibly
absent) and a PR number, returns a payload. -/
abbrev Client : Type := Option String → Int → Payload

/-- The exceptions the modelled code can raise, with their payloads. -/
inductive KError where
  /-- `ValueError('Repository URL contained host', host, 'but did not
  begin as expected', 'expected prefix', prefix)` in `_provider_slug`. -/
  | malformedRepoURL (host pfx : String)
  /-- `ValueError('Could not detect Kokoro provider.')`. -/
  | providerUndetected
  /-- `KeyError('Missing key in the GitHub API payload', 'expected
  base->sha', pr_info, self.slug, self.pr)` in `Kokoro.base`. -/
  | missingBaseSha (payload : Payload) (slug : Option String) (pr : Option Int)
  /-- `NotImplementedError('GitHub is only supported way to retrieve PR
  info')` in `Kokoro._pr_info`. -/
  | prInfoNotImplemented
  /-- `NotImplementedError('Diff base currently only supported in a PR
  from GitHub')` in `Kokoro.base`. -/
  | baseNotImplemented
deriving DecidableEq, Repr

/-- `kokoro._ci_branch(provider)`. -/
def ci_branch (e : Env) (provider : KokoroRepoProvider) : Option String :=
  if provider ≠ KokoroRepoProvider.gerrit then
    none
  else
    Env.get? e KOKORO_GERRIT_BRANCH

/-- `kokoro._kokoro_ci_pr()`: first of the GitHub PR-number / Gerrit
change-number variables whose value parses as an int, else `none`. -/
def kokoro_ci_pr (e : Env) : Option Int :=
  match parsePyInt (Env.getD e KOKORO_GITHUB_PULL_REQUEST_NUMBER) with
  | some n => some n
  | none => parsePyInt (Env.getD e KOKORO_GERRIT_CHANGE_NUMBER)

/-- `kokoro._repo_url()`: PR URL with `/pull/<digits>` matches removed,
else commit URL with `/commit/.*` matches removed, else `none`. -/
def repo_url_fn (e : Env) : Option String :=
  match Env.get? e KOKORO_GITHUB_PULL_REQUEST_URL with
  | some pr_url => some (String.mk (subPull pr_url.data))
  | none =>
    match Env.get? e KOKORO_GITHUB_COMMIT_URL with
    | some commit_url => some (String.mk (subCommit commit_url.data))
    | none => none

/-- `kokoro._provider_slug(repo_url)`.  When the URL starts with
`GITHUB_PFX`, Python's `repo_url.split(_GITHUB_PREFIX, 1)[1]` is the
remainder after that leading prefix, i.e. `drop` of its length. -/
def provider_slug (e : Env) (repoUrl : Option String) :
    Except KError (KokoroRepoProvider × Option String) :=
  if Env.containsKey e KOKORO_GERRIT_BRANCH
      || Env.containsKey e KOKORO_GOB_COMMIT then
    .ok (KokoroRepoProvider.gerrit, none)
  else
    match repoUrl with
    | some url =>
      if containsSub url.data GITHUB_HOST.data then
        if GITHUB_PFX.data.isPrefixOf url.data then
          .ok (KokoroRepoProvider.github,
               some (String.mk (url.data.drop GITHUB_PFX.data.length)))
        else
          .error (KError.malformedRepoURL GITHUB_HOST GITHUB_PFX)
      else
        .error KError.providerUndetected
    | none => .error KError.providerUndetected

/-! The `Kokoro` configuration object.  Its cache slots all start at the
`_utils.UNSET` sentinel, modelled by `none` in an outer `Option` layer
(`some v` = "computed, result `v`", where `v` itself may be a Python
`None` = inner `none`).  `fetchCount` is instrumentation only: it counts
calls of the Remote PR-Info Client (`_github.pr_info`). -/

structure KokoroState where
  base_c : Option String := none
  pr_c : Option (Option Int) := none
  pr_info_c : Option Payload := none
  provider_c : Option KokoroRepoProvider := none
  repo_url_c : Option (Option String) := none
  slug_c : Option (Option String) := none
  branch_c : Option (Option String) := none
  fetchCount : Nat := 0
deriving DecidableEq, Repr

/-- A freshly constructed `Kokoro()` object: every slot `UNSET`. -/
def KokoroState.fresh : KokoroState := {}

namespace Kokoro

/-- `Kokoro.repo_url` property. -/
def repo_url (e : Env) (s : KokoroState) : Option String × KokoroState :=
  match s.repo_url_c with
  | some v => (v, s)
  | none =>
    let v := repo_url_fn e
    (v, { s with repo_url_c := some v })

/-- `Kokoro.pr` property. -/
def pr (e : Env) (s : KokoroState) : Option Int × KokoroState :=
  match s.pr_c with
  | some v => (v, s)
  | none =>
    let v := kokoro_ci_pr e
    (v, { s with pr_c := some v })

/-- `Kokoro.in_pr` property: `self.pr is not None`, never cached. -/
def in_pr (e : Env) (s : KokoroState) : Bool × KokoroState :=
  let (p, s1) := pr e s
  (p.isSome, s1)

/-- `Kokoro.provider` property: on a cache miss, accesses `self.repo_url`
and stores both halves of `_provider_slug`'s result. -/
def provider (e : Env) (s : KokoroState) :
    Except KError KokoroRepoProvider × KokoroState :=
  match s.provider_c with
  | some p => (.ok p, s)
  | none =>
    let (url, s1) := repo_url e s
    match provider_slug e url with
    | .ok (p, sl) => (.ok p, { s1 with provider_c := some p, slug_c := some sl })
    | .error err => (.error err, s1)

/-- `Kokoro.slug` property: same computation as `provider`, keyed on the
slug slot. -/
def slug (e : Env) (s : KokoroState) :
    Except KError (Option String) × KokoroState :=
  match s.slug_c with
  | some sl => (.ok sl, s)
  | none =>
    let (url, s1) := repo_url e s
    match provider_slug e url with
    | .ok (p, sl) => (.ok sl, { s1 with provider_c := some p, slug_c := some sl })
    | .error err => (.error err, s1)

/-- `Kokoro.branch` property: `_ci_branch(self.provider)`, cached. -/
def branch (e : Env) (s : KokoroState) :
    Except KError (Option String) × KokoroState :=
  match s.branch_c with
  | some b => (.ok b, s)
  | none =>
    let (pres, s1) := provider e s
    match pres with
    | .ok p =>
      let b := ci_branch e p
      (.ok b, { s1 with branch_c := some b })
    | .error err => (.error err, s1)

/-- `Kokoro._pr_info` property: `{}` when not in a PR; a remote fetch of
`_github.pr_info(self.slug, current_pr)` when the provider is GitHub;
`NotImplementedError` otherwise. -/
def pr_info (e : Env) (client : Client) (s : KokoroState) :
    Except KError Payload × KokoroState :=
  match s.pr_info_c with
  | some pi => (.ok pi, s)
  | none =>
    let (current_pr, s1) := pr e s
    match current_pr with
    | none => (.ok ([] : Payload), { s1 with pr_info_c := some [] })
    | some n =>
      let (pres, s2) := provider e s1
      match pres with
      | .error err => (.error err, s2)
      | .ok KokoroRepoProvider.github =>
        let (slres, s3) := slug e s2
        match slres with
        | .error err => (.error err, s3)
        | .ok sl =>
          let payload := client sl n
          (.ok payload,
           { s3 with pr_info_c := some payload,
                     fetchCount := s3.fetchCount + 1 })
      | .ok _ => (.error KError.prInfoNotImplemented, s2)

/-- `Kokoro.base` property: `'HEAD~1'` for Gerrit; in a PR, the payload's
`base->sha` (a `KeyError` built from the payload, `self.slug` and
`self.pr` when absent); otherwise `NotImplementedError`. -/
def base (e : Env) (client : Client) (s : KokoroState) :
    Except KError String × KokoroState :=
  match s.base_c with
  | some b => (.ok b, s)
  | none =>
    let (pres, s1) := provider e s
    match pres with
    | .error err => (.error err, s1)
    | .ok p =>
      if p = KokoroRepoProvider.gerrit then
        (.ok "HEAD~1", { s1 with base_c := some "HEAD~1" })
      else
        let (inpr, s2) := in_pr e s1
        if inpr then
          let (pir, s3) := pr_info e client s2
          match pir with
          | .error err => (.error err, s3)
          | .ok payload =>
            match Payload.get2 payload "base" "sha" with
            | some sha => (.ok sha, { s3 with base_c := some sha })
            | none =>
              let (slres, s4) := slug e s3
              match slres with
              | .error err => (.error err, s4)
              | .ok sl =>
                let (prv, s5) := pr e s4
                (.error (KError.missingBaseSha payload sl prv), s5)
        else
          (.error KError.baseNotImplemented, s2)

end Kokoro

/-! `appveyor.py`. -/

/-- `appveyor.AppVeyorRepoProvider` enum. -/
inductive AppVeyorRepoProvider where
  | github
  | bitbucket
  | kiln
  | vso
  | gitlab
deriving DecidableEq, Repr

/-- The `.name` of each `AppVeyorRepoProvider` member. -/
def AppVeyorRepoProvider.name : AppVeyorRepoProvider → String
  | .github => "github"
  | .bitbucket => "bitbucket"
  | .kiln => "kiln"
  | .vso => "vso"
  | .gitlab => "gitlab"

/-- Enum lookup by value, `AppVeyorRepoProvider(repo_provider)`: `none`
where Python raises `ValueError`.  (Member values equal member names.) -/
def AppVeyorRepoProvider.ofValue (v : String) : Option AppVeyorRepoProvider :=
  if v = "github" then some .github
  else if v = "bitbucket" then some .bitbucket
  else if v = "kiln" then some .kiln
  else if v = "vso" then some .vso
  else if v = "gitlab" then some .gitlab
  else none

/-- The exception `appveyor._appveyor_provider` can raise. -/
inductive AVError where
  /-- `ValueError('Invalid repo provider', repo_provider, 'Expected one
  of', [enum_val.name for enum_val in AppVeyorRepoProvider])`. -/
  | invalidProvider (raw : String) (accepted : List String)
deriving DecidableEq, Repr

/-- `appveyor._appveyor_provider()`. -/
def appveyor_provider (e : Env) : Except AVError AppVeyorRepoProvider :=
  let repo_provider := Env.getD e APPVEYOR_REPO_ENV
  match AppVeyorRepoProvider.ofValue repo_provider with
  | some p => .ok p
  | none =>
    .error (AVError.invalidProvider repo_provider
      ([AppVeyorRepoProvider.github, .bitbucket, .kiln, .vso, .gitlab].map
        AppVeyorRepoProvider.name))

/-- The `AppVeyor` configuration object's cache state. -/
structure AppVeyorState where
  provider_c : Option AppVeyorRepoProvider := none
deriving DecidableEq, Repr

/-- A freshly constructed `AppVeyor()` object. -/
def AppVeyorState.fresh : AppVeyorState := {}

/-- `AppVeyor.provider` property. -/
def AppVeyor.provider (e : Env) (s : AppVeyorState) :
    Except AVError AppVeyorRepoProvider × AppVeyorState :=
  match s.provider_c with
  | some p => (.ok p, s)
  | none =>
    match appveyor_provider e with
    | .ok p => (.ok p, { s with provider_c := some p })
    | .error err => (.error err, s)

/-! Accessor step relation: one step is one property access on the
`Kokoro` object (any of the properties modelled above), keeping only the
state change.  `Reachable` closes the steps under composition starting
from a fresh object. -/

inductive KStep (e : Env) (client : Client) : KokoroState → KokoroState → Prop where
  | repoUrl (s : KokoroState) : KStep e client s (Kokoro.repo_url e s).2
  | prStep (s : KokoroState) : KStep e client s (Kokoro.pr e s).2
  | inPr (s : KokoroState) : KStep e client s (Kokoro.in_pr e s).2
  | providerStep (s : KokoroState) : KStep e client s (Kokoro.provider e s).2
  | slugStep (s : KokoroState) : KStep e client s (Kokoro.slug e s).2
  | branchStep (s : KokoroState) : KStep e client s (Kokoro.branch e s).2
  | prInfo (s : KokoroState) : KStep e client s (Kokoro.pr_info e client s).2
  | baseStep (s : KokoroState) : KStep e client s (Kokoro.base e client s).2

/-- States an instance can be in after any sequence of property accesses
on a fresh `Kokoro` object. -/
def Reachable (e : Env) (client : Client) (s : KokoroState) : Prop :=
  Relation.ReflTransGen (KStep e client) KokoroState.fresh s

/-- Stated from the words of spec §4.2 for the PR-URL case, used only to
compare the code against the claim: remove a trailing `/pull/<digits>`
suffix when the string ends with one, and return every other string
unchanged. -/
def stripTrailingPullSpec (s : String) : String :=
  let rev := s.data.reverse
  let ds := rev.takeWhile Char.isDigit
  let rest := rev.dropWhile Char.isDigit
  if ds ≠ [] ∧ rest.take 6 = '/' :: 'l' :: 'l' :: 'u' :: 'p' :: '/' :: [] then
    String.mk ((rest.drop 6).reverse)
  else
    s

/-- Invariant holding in every state reachable by property accesses on a
fresh `Kokoro` object: the provider and slug caches are filled together,
and the remote fetch has run at most once (and never while its payload
cache is still unset). -/
def KInv (s : KokoroState) : Prop :=
  (s.provider_c = none ↔ s.slug_c = none) ∧
  (s.pr_info_c = none → s.fetchCount = 0) ∧
  s.fetchCount ≤ 1

/-! List helpers for reasoning about the `/pull/<digits>` substitution. -/

theorem takeWhile_of_all {p : Char → Bool} :
    ∀ {l : List Char}, l.all p = true → l.takeWhile p = l := by
  intro l h
  induction l with
  | nil => rfl
  | cons c cs ih =>
    simp only [List.all_cons, Bool.and_eq_true] at h
    simp [List.takeWhile_cons, h.1, ih h.2]

theorem dropWhile_of_all {p : Char → Bool} :
    ∀ {l : List Char}, l.all p = true → l.dropWhile p = [] := by
  intro l h
  induction l with
  | nil => rfl
  | cons c cs ih =>
    simp only [List.all_cons, Bool.and_eq_true] at h
    simp [List.dropWhile_cons, h.1, ih h.2]

/-- A list with no `/pull/<digits>` match anywhere still has none when a
literal `/pull/<digits>` suffix is appended, at any position before the
appended suffix itself. -/
theorem matchPullAt_append_pat (ds : List Char) (l : List Char) (hl : l ≠ [])
    (h : matchPullAt l = none) :
    matchPullAt (l ++ '/' :: 'p' :: 'u' :: 'l' :: 'l' :: '/' :: ds) = none := by
  match l with
  | [a] => simp [matchPullAt]
  | [a, b] => simp [matchPullAt]
  | [a, b, c] => simp [matchPullAt]
  | [a, b, c, d] => simp [matchPullAt]
  | [a, b, c, d, e] => simp [matchPullAt]
  | [a, b, c, d, e, f] => simp [matchPullAt]
  | a :: b :: c :: d :: e :: f :: g :: t =>
    by_cases h6 : a = '/' ∧ b = 'p' ∧ c = 'u' ∧ d = 'l' ∧ e = 'l' ∧ f = '/'
    · obtain ⟨rfl, rfl, rfl, rfl, rfl, rfl⟩ := h6
      cases hg : g.isDigit with
      | false => simp [matchPullAt, List.takeWhile_cons, hg]
      | true =>
        exfalso
        simp [matchPullAt, List.takeWhile_cons, hg] at h
    · simp only [List.cons_append]
      rw [matchPullAt, if_neg]
      rintro ⟨heq, -⟩
      simp only [List.take] at heq
      simp at heq
      exact h6 ⟨heq.1, heq.2.1, heq.2.2.1, heq.2.2.2.1, heq.2.2.2.2.1, heq.2.2.2.2.2⟩

theorem subPullAux_append (ds : List Char) (hds : ds ≠ [])
    (hall : ds.all Char.isDigit = true) :
    ∀ (fuel : Nat) (u : List Char), pullFree u = true →
      (u ++ '/' :: 'p' :: 'u' :: 'l' :: 'l' :: '/' :: ds).length ≤ fuel →
      subPullAux fuel (u ++ '/' :: 'p' :: 'u' :: 'l' :: 'l' :: '/' :: ds) = u := by
  intro fuel
  induction fuel with
  | zero =>
    intro u hfree hlen
    simp at hlen
  | succ fuel ih =>
    intro u hfree hlen
    cases u with
    | nil =>
      have hmatch : matchPullAt ('/' :: 'p' :: 'u' :: 'l' :: 'l' :: '/' :: ds) = some [] := by
        simp [matchPullAt, takeWhile_of_all hall, dropWhile_of_all hall, hds]
      rw [List.nil_append, subPullAux, hmatch]
      exact subPullAux.eq_1 fuel
    | cons c cs =>
      simp only [pullFree, Bool.and_eq_true, Option.isNone_iff_eq_none] at hfree
      have hmatch := matchPullAt_append_pat ds (c :: cs) (by simp) hfree.1
      try simp only [List.cons_append] at hmatch
      try simp only [List.cons_append]
      rw [subPullAux, hmatch]
      have hlen2 : (cs ++ '/' :: 'p' :: 'u' :: 'l' :: 'l' :: '/' :: ds).length ≤ fuel := by
        simp only [List.cons_append, List.length_cons] at hlen
        omega
      rw [ih cs hfree.2 hlen2]

/-- When the URL contains `/pull/<digits>` only as a trailing suffix, the
substitution strips exactly that suffix. -/
theorem subPull_trailing (u ds : List Char) (hfree : pullFree u = true)
    (hds : ds ≠ []) (hall : ds.all Char.isDigit = true) :
    subPull (u ++ '/' :: 'p' :: 'u' :: 'l' :: 'l' :: '/' :: ds) = u :=
  subPullAux_append ds hds hall _ u hfree (Nat.le_refl _)
namespace Kokoro

theorem repo_url_stable (e : Env) (s : KokoroState) :
    repo_url e (repo_url e s).2 = ((repo_url e s).1, (repo_url e s).2) := by
  obtain ⟨b, p, pi, pv, ru, sl, br, fc⟩ := s
  cases ru <;> simp [repo_url]

theorem pr_stable (e : Env) (s : KokoroState) :
    pr e (pr e s).2 = ((pr e s).1, (pr e s).2) := by
  obtain ⟨b, p, pi, pv, ru, sl, br, fc⟩ := s
  cases p <;> simp [pr]

theorem in_pr_stable (e : Env) (s : KokoroState) :
    in_pr e (in_pr e s).2 = ((in_pr e s).1, (in_pr e s).2) := by
  obtain ⟨b, p, pi, pv, ru, sl, br, fc⟩ := s
  cases p <;> simp [in_pr, pr]

theorem provider_stable (e : Env) (s : KokoroState) :
    provider e (provider e s).2 = ((provider e s).1, (provider e s).2) := by
  obtain ⟨b, p, pi, pv, ru, sl, br, fc⟩ := s
  cases pv with
  | some pp => rfl
  | none =>
    cases ru with
    | some val =>
      rcases h : provider_slug e val with err | ⟨pp, ss⟩ <;>
        simp [provider, repo_url, h]
    | none =>
      rcases h : provider_slug e (repo_url_fn e) with err | ⟨pp, ss⟩ <;>
        simp [provider, repo_url, h]

theorem slug_stable (e : Env) (s : KokoroState) :
    slug e (slug e s).2 = ((slug e s).1, (slug e s).2) := by
  obtain ⟨b, p, pi, pv, ru, sl, br, fc⟩ := s
  cases sl with
  | some slv => rfl
  | none =>
    cases ru with
    | some val =>
      rcases h : provider_slug e val with err | ⟨pp, ss⟩ <;>
        simp [slug, repo_url, h]
    | none =>
      rcases h : provider_slug e (repo_url_fn e) with err | ⟨pp, ss⟩ <;>
        simp [slug, repo_url, h]

theorem branch_stable (e : Env) (s : KokoroState) :
    branch e (branch e s).2 = ((branch e s).1, (branch e s).2) := by
  obtain ⟨b, p, pi, pv, ru, sl, br, fc⟩ := s
  cases br with
  | some bv => rfl
  | none =>
    cases pv with
    | some pp => simp [branch, provider]
    | none =>
      cases ru with
      | some val =>
        rcases h : provider_slug e val with err | ⟨pp, ss⟩ <;>
          simp [branch, provider, repo_url, h]
      | none =>
        rcases h : provider_slug e (repo_url_fn e) with err | ⟨pp, ss⟩ <;>
          simp [branch, provider, repo_url, h]

theorem pr_info_stable_aux (e : Env) (c : Client) (b : Option String)
    (pv : Option KokoroRepoProvider) (ru : Option (Option String))
    (sl : Option (Option String)) (br : Option (Option String)) (fc : Nat) (n : Int) :
    pr_info e c (pr_info e c ⟨b, some (some n), none, pv, ru, sl, br, fc⟩).2
      = ((pr_info e c ⟨b, some (some n), none, pv, ru, sl, br, fc⟩).1,
         (pr_info e c ⟨b, some (some n), none, pv, ru, sl, br, fc⟩).2) := by
  cases pv with
  | some pp =>
    cases pp with
    | gerrit => simp [pr_info, pr, provider]
    | github =>
      cases sl with
      | some slv => simp [pr_info, pr, provider, slug]
      | none =>
        cases ru with
        | some val =>
          rcases h : provider_slug e val with err | ⟨p2, sl2⟩ <;>
            simp [pr_info, pr, provider, slug, repo_url, h]
        | none =>
          rcases h : provider_slug e (repo_url_fn e) with err | ⟨p2, sl2⟩ <;>
            simp [pr_info, pr, provider, slug, repo_url, h]
  | none =>
    cases ru with
    | some val =>
      rcases h : provider_slug e val with err | ⟨p2, sl2⟩
      · simp [pr_info, pr, provider, repo_url, h]
      · cases p2 <;> simp [pr_info, pr, provider, slug, repo_url, h]
    | none =>
      rcases h : provider_slug e (repo_url_fn e) with err | ⟨p2, sl2⟩
      · simp [pr_info, pr, provider, repo_url, h]
      · cases p2 <;> simp [pr_info, pr, provider, slug, repo_url, h]

theorem pr_info_stable (e : Env) (c : Client) (s : KokoroState) :
    pr_info e c (pr_info e c s).2 = ((pr_info e c s).1, (pr_info e c s).2) := by
  obtain ⟨b, p, pi, pv, ru, sl, br, fc⟩ := s
  cases pi with
  | some v => rfl
  | none =>
    cases p with
    | some pval =>
      cases pval with
      | none => simp [pr_info, pr]
      | some n => exact pr_info_stable_aux e c b pv ru sl br fc n
    | none =>
      rcases hpr : kokoro_ci_pr e with _ | n
      · simp [pr_info, pr, hpr]
      · have hbr : pr_info e c ⟨b, none, none, pv, ru, sl, br, fc⟩
            = pr_info e c ⟨b, some (some n), none, pv, ru, sl, br, fc⟩ := by
          simp [pr_info, pr, hpr]
        rw [hbr]
        exact pr_info_stable_aux e c b pv ru sl br fc n

end Kokoro

namespace Kokoro

theorem base_stable_aux2 (e : Env) (c : Client) (pi : Option Payload)
    (ru : Option (Option String)) (slv : Option String)
    (br : Option (Option String)) (fc : Nat) (n : Int) :
    base e c (base e c ⟨none, some (some n), pi, some .github, ru, some slv, br, fc⟩).2
      = ((base e c ⟨none, some (some n), pi, some .github, ru, some slv, br, fc⟩).1,
         (base e c ⟨none, some (some n), pi, some .github, ru, some slv, br, fc⟩).2) := by
  cases pi with
  | some payload =>
    rcases hg : Payload.get2 payload "base" "sha" with _ | sha
    · simp [base, provider, in_pr, pr, pr_info, slug, hg]
    · simp [base, provider, in_pr, pr, pr_info, hg]
  | none =>
    rcases hg : Payload.get2 (c slv n) "base" "sha" with _ | sha <;>
      simp [base, provider, in_pr, pr, pr_info, slug, hg]

theorem base_stable_aux1 (e : Env) (c : Client) (p : Option (Option Int))
    (pi : Option Payload) (ru : Option (Option String)) (slv : Option String)
    (br : Option (Option String)) (fc : Nat) :
    base e c (base e c ⟨none, p, pi, some .github, ru, some slv, br, fc⟩).2
      = ((base e c ⟨none, p, pi, some .github, ru, some slv, br, fc⟩).1,
         (base e c ⟨none, p, pi, some .github, ru, some slv, br, fc⟩).2) := by
  cases p with
  | some pval =>
    cases pval with
    | none => simp [base, provider, in_pr, pr]
    | some n => exact base_stable_aux2 e c pi ru slv br fc n
  | none =>
    rcases hpr : kokoro_ci_pr e with _ | n
    · simp [base, provider, in_pr, pr, hpr]
    · have hbr : base e c ⟨none, none, pi, some .github, ru, some slv, br, fc⟩
          = base e c ⟨none, some (some n), pi, some .github, ru, some slv, br, fc⟩ := by
        simp [base, provider, in_pr, pr, hpr]
      rw [hbr]
      exact base_stable_aux2 e c pi ru slv br fc n

theorem base_stable (e : Env) (c : Client) (s : KokoroState)
    (hpair : s.provider_c = none ↔ s.slug_c = none) :
    base e c (base e c s).2 = ((base e c s).1, (base e c s).2) := by
  obtain ⟨b, p, pi, pv, ru, sl, br, fc⟩ := s
  cases b with
  | some bv => rfl
  | none =>
    cases pv with
    | some pp =>
      cases sl with
      | none => simp at hpair
      | some slv =>
        cases pp with
        | gerrit => simp [base, provider]
        | github => exact base_stable_aux1 e c p pi ru slv br fc
    | none =>
      cases sl with
      | some slv => simp at hpair
      | none =>
        cases ru with
        | some val =>
          rcases hps : provider_slug e val with err | ⟨p2, sl2⟩
          · simp [base, provider, repo_url, hps]
          · cases p2 with
            | gerrit => simp [base, provider, repo_url, hps]
            | github =>
              have hbr : base e c ⟨none, p, pi, none, some val, none, br, fc⟩
                  = base e c ⟨none, p, pi, some .github, some val, some sl2, br, fc⟩ := by
                simp [base, provider, repo_url, hps]
              rw [hbr]
              exact base_stable_aux1 e c p pi (some val) sl2 br fc
        | none =>
          rcases hps : provider_slug e (repo_url_fn e) with err | ⟨p2, sl2⟩
          · simp [base, provider, repo_url, hps]
          · cases p2 with
            | gerrit => simp [base, provider, repo_url, hps]
            | github =>
              have hbr : base e c ⟨none, p, pi, none, none, none, br, fc⟩
                  = base e c ⟨none, p, pi, some .github, some (repo_url_fn e), some sl2, br, fc⟩ := by
                simp [base, provider, repo_url, hps]
              rw [hbr]
              exact base_stable_aux1 e c p pi (some (repo_url_fn e)) sl2 br fc

end Kokoro

namespace Kokoro

theorem repo_url_KInv (e : Env) (s : KokoroState) (h : KInv s) :
    KInv (repo_url e s).2 := by
  obtain ⟨b, p, pi, pv, ru, sl, br, fc⟩ := s
  obtain ⟨h1, h2, h3⟩ := h
  cases ru <;> simp_all [repo_url, KInv]

theorem pr_KInv (e : Env) (s : KokoroState) (h : KInv s) :
    KInv (pr e s).2 := by
  obtain ⟨b, p, pi, pv, ru, sl, br, fc⟩ := s
  obtain ⟨h1, h2, h3⟩ := h
  cases p <;> simp_all [pr, KInv]

theorem in_pr_KInv (e : Env) (s : KokoroState) (h : KInv s) :
    KInv (in_pr e s).2 := by
  obtain ⟨b, p, pi, pv, ru, sl, br, fc⟩ := s
  obtain ⟨h1, h2, h3⟩ := h
  cases p <;> simp_all [in_pr, pr, KInv]

theorem provider_KInv (e : Env) (s : KokoroState) (h : KInv s) :
    KInv (provider e s).2 := by
  obtain ⟨b, p, pi, pv, ru, sl, br, fc⟩ := s
  obtain ⟨h1, h2, h3⟩ := h
  cases pv with
  | some pp => simp_all [provider, KInv]
  | none =>
    cases ru with
    | some val =>
      rcases hps : provider_slug e val with err | ⟨pp, ss⟩ <;>
        simp_all [provider, repo_url, KInv]
    | none =>
      rcases hps : provider_slug e (repo_url_fn e) with err | ⟨pp, ss⟩ <;>
        simp_all [provider, repo_url, KInv]

theorem slug_KInv (e : Env) (s : KokoroState) (h : KInv s) :
    KInv (slug e s).2 := by
  obtain ⟨b, p, pi, pv, ru, sl, br, fc⟩ := s
  obtain ⟨h1, h2, h3⟩ := h
  cases sl with
  | some slv => simp_all [slug, KInv]
  | none =>
    cases ru with
    | some val =>
      rcases hps : provider_slug e val with err | ⟨pp, ss⟩ <;>
        simp_all [slug, repo_url, KInv]
    | none =>
      rcases hps : provider_slug e (repo_url_fn e) with err | ⟨pp, ss⟩ <;>
        simp_all [slug, repo_url, KInv]

theorem branch_KInv (e : Env) (s : KokoroState) (h : KInv s) :
    KInv (branch e s).2 := by
  obtain ⟨b, p, pi, pv, ru, sl, br, fc⟩ := s
  obtain ⟨h1, h2, h3⟩ := h
  cases br with
  | some bv => simp_all [branch, KInv]
  | none =>
    cases pv with
    | some pp => simp_all [branch, provider, KInv]
    | none =>
      cases ru with
      | some val =>
        rcases hps : provider_slug e val with err | ⟨pp, ss⟩ <;>
          simp_all [branch, provider, repo_url, KInv]
      | none =>
        rcases hps : provider_slug e (repo_url_fn e) with err | ⟨pp, ss⟩ <;>
          simp_all [branch, provider, repo_url, KInv]

theorem pr_info_KInv (e : Env) (c : Client) (s : KokoroState) (h : KInv s) :
    KInv (pr_info e c s).2 := by
  obtain ⟨b, p, pi, pv, ru, sl, br, fc⟩ := s
  cases pi with
  | some v => exact h
  | none =>
    obtain ⟨h1, h2, h3⟩ := h
    have hfc : fc = 0 := h2 rfl
    subst hfc
    have hpr2 : ∀ n : Option Int,
        KInv (pr_info e c ⟨b, some n, none, pv, ru, sl, br, 0⟩).2 := by
      intro n
      cases n with
      | none => simp_all [pr_info, pr, KInv]
      | some n =>
        cases pv with
        | some pp =>
          cases pp with
          | gerrit => simp_all [pr_info, pr, provider, KInv]
          | github =>
            cases sl with
            | some slv => simp_all [pr_info, pr, provider, slug, KInv]
            | none =>
              cases ru with
              | some val =>
                rcases hps : provider_slug e val with err | ⟨p2, sl2⟩ <;>
                  simp_all [pr_info, pr, provider, slug, repo_url, KInv]
              | none =>
                rcases hps : provider_slug e (repo_url_fn e) with err | ⟨p2, sl2⟩ <;>
                  simp_all [pr_info, pr, provider, slug, repo_url, KInv]
        | none =>
          cases ru with
          | some val =>
            rcases hps : provider_slug e val with err | ⟨p2, sl2⟩
            · simp_all [pr_info, pr, provider, repo_url, KInv]
            · cases p2 <;>
                simp_all [pr_info, pr, provider, slug, repo_url, KInv]
          | none =>
            rcases hps : provider_slug e (repo_url_fn e) with err | ⟨p2, sl2⟩
            · simp_all [pr_info, pr, provider, repo_url, KInv]
            · cases p2 <;>
                simp_all [pr_info, pr, provider, slug, repo_url, KInv]
    cases p with
    | some pval => exact hpr2 pval
    | none =>
      have hbr : (pr_info e c ⟨b, none, none, pv, ru, sl, br, 0⟩).2
          = (pr_info e c ⟨b, some (kokoro_ci_pr e), none, pv, ru, sl, br, 0⟩).2 := by
        rcases hpr : kokoro_ci_pr e with _ | n <;> simp [pr_info, pr, hpr]
      rw [hbr]
      exact hpr2 (kokoro_ci_pr e)

end Kokoro

namespace Kokoro

theorem base_KInv_aux2 (e : Env) (c : Client) (pi : Option Payload)
    (ru : Option (Option String)) (slv : Option String)
    (br : Option (Option String)) (fc : Nat) (n : Int)
    (h2 : pi = none → fc = 0) (h3 : fc ≤ 1) :
    KInv (base e c ⟨none, some (some n), pi, some .github, ru, some slv, br, fc⟩).2 := by
  cases pi with
  | some payload =>
    rcases hg : Payload.get2 payload "base" "sha" with _ | sha <;>
      simp_all [base, provider, in_pr, pr, pr_info, slug, KInv]
  | none =>
    have hfc : fc = 0 := h2 rfl
    subst hfc
    rcases hg : Payload.get2 (c slv n) "base" "sha" with _ | sha <;>
      simp_all [base, provider, in_pr, pr, pr_info, slug, KInv]

theorem base_KInv_aux1 (e : Env) (c : Client) (p : Option (Option Int))
    (pi : Option Payload) (ru : Option (Option String)) (slv : Option String)
    (br : Option (Option String)) (fc : Nat)
    (h2 : pi = none → fc = 0) (h3 : fc ≤ 1) :
    KInv (base e c ⟨none, p, pi, some .github, ru, some slv, br, fc⟩).2 := by
  cases p with
  | some pval =>
    cases pval with
    | none => simp_all [base, provider, in_pr, pr, KInv]
    | some n => exact base_KInv_aux2 e c pi ru slv br fc n h2 h3
  | none =>
    rcases hpr : kokoro_ci_pr e with _ | n
    · simp_all [base, provider, in_pr, pr, KInv]
    · have hbr : base e c ⟨none, none, pi, some .github, ru, some slv, br, fc⟩
          = base e c ⟨none, some (some n), pi, some .github, ru, some slv, br, fc⟩ := by
        simp [base, provider, in_pr, pr, hpr]
      rw [hbr]
      exact base_KInv_aux2 e c pi ru slv br fc n h2 h3

theorem base_KInv (e : Env) (c : Client) (s : KokoroState) (h : KInv s) :
    KInv (base e c s).2 := by
  obtain ⟨b, p, pi, pv, ru, sl, br, fc⟩ := s
  obtain ⟨h1, h2, h3⟩ := h
  cases b with
  | some bv => exact ⟨h1, h2, h3⟩
  | none =>
    cases pv with
    | some pp =>
      cases sl with
      | none => simp at h1
      | some slv =>
        cases pp with
        | gerrit => simp_all [base, provider, KInv]
        | github => exact base_KInv_aux1 e c p pi ru slv br fc h2 h3
    | none =>
      cases sl with
      | some slv => simp at h1
      | none =>
        cases ru with
        | some val =>
          rcases hps : provider_slug e val with err | ⟨p2, sl2⟩
          · simp_all [base, provider, repo_url, KInv]
          · cases p2 with
            | gerrit => simp_all [base, provider, repo_url, KInv]
            | github =>
              have hbr : base e c ⟨none, p, pi, none, some val, none, br, fc⟩
                  = base e c ⟨none, p, pi, some .github, some val, some sl2, br, fc⟩ := by
                simp [base, provider, repo_url, hps]
              rw [hbr]
              exact base_KInv_aux1 e c p pi (some val) sl2 br fc h2 h3
        | none =>
          rcases hps : provider_slug e (repo_url_fn e) with err | ⟨p2, sl2⟩
          · simp_all [base, provider, repo_url, KInv]
          · cases p2 with
            | gerrit => simp_all [base, provider, repo_url, KInv]
            | github =>
              have hbr : base e c ⟨none, p, pi, none, none, none, br, fc⟩
                  = base e c ⟨none, p, pi, some .github, some (repo_url_fn e), some sl2, br, fc⟩ := by
                simp [base, provider, repo_url, hps]
              rw [hbr]
              exact base_KInv_aux1 e c p pi (some (repo_url_fn e)) sl2 br fc h2 h3

/-- Every reachable state satisfies the invariant. -/
theorem reachable_KInv (e : Env) (c : Client) (s : KokoroState)
    (h : Reachable e c s) : KInv s := by
  induction h with
  | refl => exact ⟨by simp [KokoroState.fresh], by simp [KokoroState.fresh], by simp [KokoroState.fresh]⟩
  | tail hr hstep ih =>
    cases hstep with
    | repoUrl => exact repo_url_KInv e _ ih
    | prStep => exact pr_KInv e _ ih
    | inPr => exact in_pr_KInv e _ ih
    | providerStep => exact provider_KInv e _ ih
    | slugStep => exact slug_KInv e _ ih
    | branchStep => exact branch_KInv e _ ih
    | prInfo => exact pr_info_KInv e c _ ih
    | baseStep => exact base_KInv e c _ ih

end Kokoro
namespace Kokoro

theorem pr_fresh (e : Env) : pr e KokoroState.fresh = (kokoro_ci_pr e,
    { KokoroState.fresh with pr_c := some (kokoro_ci_pr e) }) := by
  simp [pr, KokoroState.fresh]

theorem in_pr_fresh (e : Env) : (in_pr e KokoroState.fresh).1 = (kokoro_ci_pr e).isSome := by
  simp [in_pr, pr, KokoroState.fresh]

theorem provider_fresh_ok {e : Env} {p : KokoroRepoProvider} {sl : Option String}
    (h : provider_slug e (repo_url_fn e) = .ok (p, sl)) :
    provider e KokoroState.fresh
      = (.ok p, ⟨none, none, none, some p, some (repo_url_fn e), some sl, none, 0⟩) := by
  simp [provider, repo_url, KokoroState.fresh, h]

theorem provider_fresh_err {e : Env} {err : KError}
    (h : provider_slug e (repo_url_fn e) = .error err) :
    provider e KokoroState.fresh
      = (.error err, ⟨none, none, none, none, some (repo_url_fn e), none, none, 0⟩) := by
  simp [provider, repo_url, KokoroState.fresh, h]

theorem slug_fresh_ok {e : Env} {p : KokoroRepoProvider} {sl : Option String}
    (h : provider_slug e (repo_url_fn e) = .ok (p, sl)) :
    slug e KokoroState.fresh
      = (.ok sl, ⟨none, none, none, some p, some (repo_url_fn e), some sl, none, 0⟩) := by
  simp [slug, repo_url, KokoroState.fresh, h]

theorem slug_fresh_err {e : Env} {err : KError}
    (h : provider_slug e (repo_url_fn e) = .error err) :
    slug e KokoroState.fresh
      = (.error err, ⟨none, none, none, none, some (repo_url_fn e), none, none, 0⟩) := by
  simp [slug, repo_url, KokoroState.fresh, h]

theorem provider_fresh_inv {e : Env} {p : KokoroRepoProvider}
    (h : (provider e KokoroState.fresh).1 = .ok p) :
    ∃ sl, provider_slug e (repo_url_fn e) = .ok (p, sl) := by
  rcases hps : provider_slug e (repo_url_fn e) with err | ⟨p2, sl2⟩
  · rw [provider_fresh_err hps] at h
    simp at h
  · rw [provider_fresh_ok hps] at h
    simp at h
    subst h
    exact ⟨sl2, rfl⟩

theorem slug_fresh_inv {e : Env} {sl : Option String}
    (h : (slug e KokoroState.fresh).1 = .ok sl) :
    ∃ p, provider_slug e (repo_url_fn e) = .ok (p, sl) := by
  rcases hps : provider_slug e (repo_url_fn e) with err | ⟨p2, sl2⟩
  · rw [slug_fresh_err hps] at h
    simp at h
  · rw [slug_fresh_ok hps] at h
    simp at h
    subst h
    exact ⟨p2, rfl⟩

theorem branch_fresh_ok {e : Env} {p : KokoroRepoProvider} {sl : Option String}
    (h : provider_slug e (repo_url_fn e) = .ok (p, sl)) :
    (branch e KokoroState.fresh).1 = .ok (ci_branch e p) := by
  simp [branch, provider, repo_url, KokoroState.fresh, h]

theorem branch_fresh_err {e : Env} {err : KError}
    (h : provider_slug e (repo_url_fn e) = .error err) :
    (branch e KokoroState.fresh).1 = .error err := by
  simp [branch, provider, repo_url, KokoroState.fresh, h]

theorem base_fresh_gerrit {e : Env} {c : Client} {sl : Option String}
    (h : provider_slug e (repo_url_fn e) = .ok (.gerrit, sl)) :
    base e c KokoroState.fresh
      = (.ok "HEAD~1",
         ⟨some "HEAD~1", none, none, some .gerrit, some (repo_url_fn e), some sl, none, 0⟩) := by
  simp [base, provider, repo_url, KokoroState.fresh, h]

theorem base_fresh_err {e : Env} {c : Client} {err : KError}
    (h : provider_slug e (repo_url_fn e) = .error err) :
    (base e c KokoroState.fresh).1 = .error err := by
  simp [base, provider, repo_url, KokoroState.fresh, h]

theorem base_fresh_nopr {e : Env} {c : Client} {sl : Option String}
    (h : provider_slug e (repo_url_fn e) = .ok (.github, sl))
    (hpr : kokoro_ci_pr e = none) :
    (base e c KokoroState.fresh).1 = .error KError.baseNotImplemented := by
  simp [base, provider, repo_url, in_pr, pr, KokoroState.fresh, h, hpr]

theorem base_fresh_sha {e : Env} {c : Client} {sl : Option String} {n : Int} {sha : String}
    (h : provider_slug e (repo_url_fn e) = .ok (.github, sl))
    (hpr : kokoro_ci_pr e = some n)
    (hg : Payload.get2 (c sl n) "base" "sha" = some sha) :
    (base e c KokoroState.fresh).1 = .ok sha ∧
    (base e c KokoroState.fresh).2.fetchCount = 1 := by
  constructor <;>
    simp [base, provider, repo_url, in_pr, pr, pr_info, slug, KokoroState.fresh, h, hpr, hg]

theorem base_fresh_missing {e : Env} {c : Client} {sl : Option String} {n : Int}
    (h : provider_slug e (repo_url_fn e) = .ok (.github, sl))
    (hpr : kokoro_ci_pr e = some n)
    (hg : Payload.get2 (c sl n) "base" "sha" = none) :
    (base e c KokoroState.fresh).1
      = .error (KError.missingBaseSha (c sl n) sl (some n)) := by
  simp [base, provider, repo_url, in_pr, pr, pr_info, slug, KokoroState.fresh, h, hpr, hg]

end Kokoro


/-! AppVeyor helper lemmas. -/

theorem ofValue_some_mem {v : String} {p : AppVeyorRepoProvider}
    (h : AppVeyorRepoProvider.ofValue v = some p) :
    v ∈ ["github", "bitbucket", "kiln", "vso", "gitlab"] := by
  unfold AppVeyorRepoProvider.ofValue at h
  split_ifs at h <;> simp_all

theorem ofValue_none_iff {v : String} :
    AppVeyorRepoProvider.ofValue v = none ↔
      v ∉ ["github", "bitbucket", "kiln", "vso", "gitlab"] := by
  unfold AppVeyorRepoProvider.ofValue
  split_ifs <;> simp_all

/-! The claim theorems. -/

/-- Claim C1: on a fresh `Kokoro` object, when the provider resolves to
Gerrit, `base` returns the literal `'HEAD~1'` without invoking the Remote
PR-Info Client (the fetch counter stays 0); and when the object is in a
PR and the provider resolves to GitHub, `base` returns exactly the string
at the `base`->`sha` path of the payload the client returns for the
resolved `(slug, pr)` pair. -/
theorem claim_C1_base_resolution : ∀ (e : Env) (client : Client),
    ((Kokoro.provider e KokoroState.fresh).1 = .ok .gerrit →
       (Kokoro.base e client KokoroState.fresh).1 = .ok "HEAD~1" ∧
       (Kokoro.base e client KokoroState.fresh).2.fetchCount = 0) ∧
    (∀ n sl sha, (Kokoro.in_pr e KokoroState.fresh).1 = true →
       (Kokoro.pr e KokoroState.fresh).1 = some n →
       (Kokoro.provider e KokoroState.fresh).1 = .ok .github →
       (Kokoro.slug e KokoroState.fresh).1 = .ok sl →
       Payload.get2 (client sl n) "base" "sha" = some sha →
       (Kokoro.base e client KokoroState.fresh).1 = .ok sha) := by
  intro e client
  constructor
  · intro h
    obtain ⟨sl, hps⟩ := Kokoro.provider_fresh_inv h
    rw [Kokoro.base_fresh_gerrit hps]
    exact ⟨rfl, rfl⟩
  · intro n sl sha hinpr hpr hpv hsl hsha
    rw [Kokoro.pr_fresh] at hpr
    simp at hpr
    obtain ⟨sl1, hps1⟩ := Kokoro.provider_fresh_inv hpv
    obtain ⟨p2, hps2⟩ := Kokoro.slug_fresh_inv hsl
    rw [hps1] at hps2
    injection hps2 with hps2
    injection hps2 with hp2 hsl2
    subst hp2
    subst hsl2
    exact (Kokoro.base_fresh_sha hps1 hpr hsha).1

/-- Claim C1 witness: a Gerrit environment where `base` is `'HEAD~1'` with
no fetch, and a GitHub-PR environment where `base` is the payload sha. -/
theorem claim_C1_base_resolution_witness :
    (Kokoro.base [(KOKORO_GERRIT_BRANCH, "master")] (fun _ _ => [])
        KokoroState.fresh).1 = .ok "HEAD~1" ∧
    (Kokoro.base [(KOKORO_GERRIT_BRANCH, "master")] (fun _ _ => [])
        KokoroState.fresh).2.fetchCount = 0 ∧
    (Kokoro.base
        [(KOKORO_GITHUB_PULL_REQUEST_NUMBER, "23"),
         (KOKORO_GITHUB_PULL_REQUEST_URL, "https://github.com/org/repo/pull/23")]
        (fun _ _ => [("base", [("sha", "7450ebe1")])]) KokoroState.fresh).1
      = .ok "7450ebe1" :=
  ⟨((claim_C1_base_resolution [(KOKORO_GERRIT_BRANCH, "master")]
      (fun _ _ => [])).1 rfl).1,
   ((claim_C1_base_resolution [(KOKORO_GERRIT_BRANCH, "master")]
      (fun _ _ => [])).1 rfl).2,
   (claim_C1_base_resolution
      [(KOKORO_GITHUB_PULL_REQUEST_NUMBER, "23"),
       (KOKORO_GITHUB_PULL_REQUEST_URL, "https://github.com/org/repo/pull/23")]
      (fun _ _ => [("base", [("sha", "7450ebe1")])])).2
     23 (some "org/repo") "7450ebe1" rfl rfl rfl rfl rfl⟩

/-- Claim C2: given that provider resolution succeeds on a fresh `Kokoro`
object, `base` fails exactly in two cases: a GitHub PR whose fetched
payload lacks the nested `base`->`sha` field (a `KeyError` carrying the
payload, the slug and the PR id), and a non-Gerrit non-PR build (the
`NotImplementedError` for unsupported base resolution); in every other
case `base` returns a value.  (The provider enum has only `github` and
`gerrit`, so a PR under a non-GitHub non-Gerrit provider cannot arise.) -/
theorem claim_C2_base_error_cases :
    ∀ (e : Env) (client : Client) (p : KokoroRepoProvider) (sl : Option String),
    provider_slug e (repo_url_fn e) = .ok (p, sl) →
    (p = .gerrit → (Kokoro.base e client KokoroState.fresh).1 = .ok "HEAD~1") ∧
    (p ≠ .gerrit →
      (kokoro_ci_pr e = none →
         (Kokoro.base e client KokoroState.fresh).1 = .error KError.baseNotImplemented) ∧
      (∀ n, kokoro_ci_pr e = some n →
         (∀ sha, Payload.get2 (client sl n) "base" "sha" = some sha →
            (Kokoro.base e client KokoroState.fresh).1 = .ok sha) ∧
         (Payload.get2 (client sl n) "base" "sha" = none →
            (Kokoro.base e client KokoroState.fresh).1
              = .error (KError.missingBaseSha (client sl n) sl (some n))))) := by
  intro e client p sl hps
  constructor
  · rintro rfl
    rw [Kokoro.base_fresh_gerrit hps]
  · intro hp
    have hpg : p = .github := by cases p <;> simp_all
    subst hpg
    refine ⟨fun hpr => Kokoro.base_fresh_nopr hps hpr,
      fun n hpr => ⟨fun sha hg => ?_, fun hg => ?_⟩⟩
    · exact (Kokoro.base_fresh_sha hps hpr hg).1
    · exact Kokoro.base_fresh_missing hps hpr hg

/-- Claim C2 witness: a GitHub-PR environment with an empty payload, where
`base` fails with the `KeyError` carrying payload, slug and PR id. -/
theorem claim_C2_base_error_cases_witness :
    (Kokoro.base
        [(KOKORO_GITHUB_PULL_REQUEST_NUMBER, "23"),
         (KOKORO_GITHUB_PULL_REQUEST_URL, "https://github.com/org/repo/pull/23")]
        (fun _ _ => []) KokoroState.fresh).1
      = .error (KError.missingBaseSha [] (some "org/repo") (some 23)) :=
  (((claim_C2_base_error_cases
      [(KOKORO_GITHUB_PULL_REQUEST_NUMBER, "23"),
       (KOKORO_GITHUB_PULL_REQUEST_URL, "https://github.com/org/repo/pull/23")]
      (fun _ _ => []) .github (some "org/repo") rfl).2 (by decide)).2
    23 rfl).2 rfl

/-- Claim C3: `_provider_slug` precedence.  When either Gerrit marker
variable is present the result is `(gerrit, no slug)` for every value of
the repo-URL argument (no URL inspection; the function makes no network
call by construction).  Otherwise, a present URL containing the GitHub
host yields `(github, remainder after the https prefix)` when the URL
starts with that prefix, the malformed-URL `ValueError` when it does not,
and the provider-undetected `ValueError` when the host is absent or the
URL is absent. -/
theorem claim_C3_provider_slug_precedence : ∀ (e : Env) (url : Option String),
    ((Env.containsKey e KOKORO_GERRIT_BRANCH || Env.containsKey e KOKORO_GOB_COMMIT) = true →
       provider_slug e url = .ok (.gerrit, none)) ∧
    ((Env.containsKey e KOKORO_GERRIT_BRANCH || Env.containsKey e KOKORO_GOB_COMMIT) = false →
       (∀ u, url = some u →
          (containsSub u.data GITHUB_HOST.data = true →
             (GITHUB_PFX.data.isPrefixOf u.data = true →
                ∃ rest, u.data = GITHUB_PFX.data ++ rest ∧
                  provider_slug e url = .ok (.github, some (String.mk rest))) ∧
             (GITHUB_PFX.data.isPrefixOf u.data = false →
                provider_slug e url = .error (KError.malformedRepoURL GITHUB_HOST GITHUB_PFX))) ∧
          (containsSub u.data GITHUB_HOST.data = false →
             provider_slug e url = .error KError.providerUndetected)) ∧
       (url = none → provider_slug e url = .error KError.providerUndetected)) := by
  intro e url
  constructor
  · intro h
    simp [provider_slug, h]
  · intro h
    constructor
    · rintro u rfl
      constructor
      · intro hhost
        constructor
        · intro hpfx
          have hpre : GITHUB_PFX.data <+: u.data := by
            rwa [← List.isPrefixOf_iff_prefix]
          obtain ⟨rest, hrest⟩ := hpre
          have hdrop : List.drop GITHUB_PFX.length u.data = rest := by
            rw [← hrest]
            exact List.drop_left _ _
          exact ⟨rest, hrest.symm, by simp [provider_slug, h, hhost, hpfx, hdrop]⟩
        · intro hpfx
          simp [provider_slug, h, hhost, hpfx]
      · intro hhost
        simp [provider_slug, h, hhost]
    · rintro rfl
      simp [provider_slug, h]

/-- Claim C3 witness: Gerrit markers win over a malformed URL; without
markers a malformed GitHub-host URL raises, and an absent URL leaves the
provider undetected. -/
theorem claim_C3_provider_slug_precedence_witness :
    provider_slug [(KOKORO_GERRIT_BRANCH, "master")] (some "http://github.com/x")
      = .ok (.gerrit, none) ∧
    provider_slug [] (some "http://github.com/x")
      = .error (KError.malformedRepoURL GITHUB_HOST GITHUB_PFX) ∧
    provider_slug [] none = .error KError.providerUndetected :=
  ⟨(claim_C3_provider_slug_precedence [(KOKORO_GERRIT_BRANCH, "master")]
      (some "http://github.com/x")).1 rfl,
   (((claim_C3_provider_slug_precedence [] (some "http://github.com/x")).2 rfl).1
      "http://github.com/x" rfl).1 (by decide) |>.2 (by decide),
   ((claim_C3_provider_slug_precedence [] none).2 rfl).2 rfl⟩

/-- Claim C4 counterexample: the claim says only a trailing
`/pull/<digits>` suffix is removed and any other part of the URL stays
unchanged, but `re.sub(r'/pull/[0-9]+', '', ...)` removes the substring
`/pull/12` from the middle of
`https://github.com/o/pull/12/r`: the code returns
`https://github.com/o/r`, while trailing-suffix-only stripping (the spec
wording, `stripTrailingPullSpec`) leaves the value unchanged. -/
theorem claim_C4_counterexample :
    repo_url_fn [(KOKORO_GITHUB_PULL_REQUEST_URL, "https://github.com/o/pull/12/r")]
        = some "https://github.com/o/r" ∧
    stripTrailingPullSpec "https://github.com/o/pull/12/r"
        = "https://github.com/o/pull/12/r" ∧
    ("https://github.com/o/r" : String) ≠ "https://github.com/o/pull/12/r" :=
  ⟨by decide, by decide, by decide⟩

/-- Claim C4 (amended): if the pull-request URL variable is present, its
value with every occurrence of `/pull/<digits>` removed is returned (in
particular, when the only such occurrence is a trailing suffix, exactly
that suffix is stripped); else if the commit URL variable is present, its
value with every `/commit/<anything up to a line break>` occurrence
removed is returned; else the result is absent and no error is raised. -/
theorem claim_C4_repo_url_derivation_amended : ∀ e : Env,
    (∀ v, Env.get? e KOKORO_GITHUB_PULL_REQUEST_URL = some v →
       repo_url_fn e = some (String.mk (subPull v.data))) ∧
    (Env.get? e KOKORO_GITHUB_PULL_REQUEST_URL = none →
       ∀ v, Env.get? e KOKORO_GITHUB_COMMIT_URL = some v →
         repo_url_fn e = some (String.mk (subCommit v.data))) ∧
    (Env.get? e KOKORO_GITHUB_PULL_REQUEST_URL = none →
       Env.get? e KOKORO_GITHUB_COMMIT_URL = none → repo_url_fn e = none) ∧
    (∀ (u ds : List Char), pullFree u = true → ds ≠ [] → ds.all Char.isDigit = true →
       subPull (u ++ '/' :: 'p' :: 'u' :: 'l' :: 'l' :: '/' :: ds) = u) := by
  intro e
  refine ⟨fun v h => ?_, fun h v h2 => ?_, fun h h2 => ?_,
    fun u ds hfree hds hall => subPull_trailing u ds hfree hds hall⟩
  · simp [repo_url_fn, h]
  · simp [repo_url_fn, h, h2]
  · simp [repo_url_fn, h, h2]

/-- Claim C4 witness: the PR URL wins and its trailing `/pull/23` suffix
is stripped exactly. -/
theorem claim_C4_repo_url_derivation_amended_witness :
    repo_url_fn [(KOKORO_GITHUB_PULL_REQUEST_URL, "https://github.com/org/repo/pull/23")]
        = some (String.mk (subPull "https://github.com/org/repo/pull/23".data)) ∧
    subPull ("https://github.com/org/repo".data ++ '/' :: 'p' :: 'u' :: 'l' :: 'l' :: '/' :: ['2', '3'])
        = "https://github.com/org/repo".data :=
  ⟨(claim_C4_repo_url_derivation_amended
      [(KOKORO_GITHUB_PULL_REQUEST_URL, "https://github.com/org/repo/pull/23")]).1
      "https://github.com/org/repo/pull/23" rfl,
   (claim_C4_repo_url_derivation_amended []).2.2.2
      "https://github.com/org/repo".data ['2', '3'] (by decide) (by decide) (by decide)⟩

/-- Claim C5: the provider and slug caches are resolved atomically
together.  In every state reachable by property accesses on a fresh
`Kokoro` object, the provider cache is unset exactly when the slug cache
is unset; and after a first successful access to `provider` or to `slug`
on a fresh object, both caches hold the two halves of the same
`_provider_slug` computation. -/
theorem claim_C5_provider_slug_atomic : ∀ (e : Env) (client : Client),
    (∀ s, Reachable e client s → (s.provider_c = none ↔ s.slug_c = none)) ∧
    (∀ p, (Kokoro.provider e KokoroState.fresh).1 = .ok p →
       ∃ sl, provider_slug e (repo_url_fn e) = .ok (p, sl) ∧
         (Kokoro.provider e KokoroState.fresh).2.provider_c = some p ∧
         (Kokoro.provider e KokoroState.fresh).2.slug_c = some sl) ∧
    (∀ sl, (Kokoro.slug e KokoroState.fresh).1 = .ok sl →
       ∃ p, provider_slug e (repo_url_fn e) = .ok (p, sl) ∧
         (Kokoro.slug e KokoroState.fresh).2.provider_c = some p ∧
         (Kokoro.slug e KokoroState.fresh).2.slug_c = some sl) := by
  intro e client
  refine ⟨fun s hs => (Kokoro.reachable_KInv e client s hs).1,
    fun p hp => ?_, fun sl hsl => ?_⟩
  · obtain ⟨sl, hps⟩ := Kokoro.provider_fresh_inv hp
    refine ⟨sl, hps, ?_, ?_⟩ <;> rw [Kokoro.provider_fresh_ok hps]
  · obtain ⟨p, hps⟩ := Kokoro.slug_fresh_inv hsl
    refine ⟨p, hps, ?_, ?_⟩ <;> rw [Kokoro.slug_fresh_ok hps]

/-- Claim C5 witness: after one `provider` access on a fresh object in a
Gerrit environment, both caches are populated together. -/
theorem claim_C5_provider_slug_atomic_witness :
    ((Kokoro.provider [(KOKORO_GERRIT_BRANCH, "master")] KokoroState.fresh).2.provider_c
        = some .gerrit ∧
     (Kokoro.provider [(KOKORO_GERRIT_BRANCH, "master")] KokoroState.fresh).2.slug_c
        = some none) ∧
    (KokoroState.fresh.provider_c = none ↔ KokoroState.fresh.slug_c = none) := by
  obtain ⟨sl, hps, h1, h2⟩ :=
    (claim_C5_provider_slug_atomic [(KOKORO_GERRIT_BRANCH, "master")]
      (fun _ _ => [])).2.1 .gerrit rfl
  have hsl : sl = none := by
    have : provider_slug [(KOKORO_GERRIT_BRANCH, "master")]
        (repo_url_fn [(KOKORO_GERRIT_BRANCH, "master")]) = .ok (.gerrit, none) := rfl
    rw [this] at hps
    injection hps with hps
    exact congrArg Prod.snd hps.symm
  subst hsl
  exact ⟨⟨h1, h2⟩,
    (claim_C5_provider_slug_atomic [(KOKORO_GERRIT_BRANCH, "master")]
      (fun _ _ => [])).1 KokoroState.fresh Relation.ReflTransGen.refl⟩

/-- Claim C6: idempotence of the cached properties.  In every reachable
state of a `Kokoro` object, a second access to `repo_url`, `pr`,
`provider`, `slug`, `branch` or `base` returns the same value as the
first and leaves the state unchanged (so the underlying environment scan
or fetch is not repeated); and the remote PR-info fetch has run at most
once in every reachable state, including after any further `base`
access. -/
theorem claim_C6_idempotence :
    ∀ (e : Env) (client : Client) (s : KokoroState), Reachable e client s →
    (Kokoro.repo_url e (Kokoro.repo_url e s).2
       = ((Kokoro.repo_url e s).1, (Kokoro.repo_url e s).2)) ∧
    (Kokoro.pr e (Kokoro.pr e s).2 = ((Kokoro.pr e s).1, (Kokoro.pr e s).2)) ∧
    (Kokoro.provider e (Kokoro.provider e s).2
       = ((Kokoro.provider e s).1, (Kokoro.provider e s).2)) ∧
    (Kokoro.slug e (Kokoro.slug e s).2 = ((Kokoro.slug e s).1, (Kokoro.slug e s).2)) ∧
    (Kokoro.branch e (Kokoro.branch e s).2
       = ((Kokoro.branch e s).1, (Kokoro.branch e s).2)) ∧
    (Kokoro.base e client (Kokoro.base e client s).2
       = ((Kokoro.base e client s).1, (Kokoro.base e client s).2)) ∧
    s.fetchCount ≤ 1 ∧
    (Kokoro.base e client s).2.fetchCount ≤ 1 := by
  intro e client s hs
  have hinv := Kokoro.reachable_KInv e client s hs
  exact ⟨Kokoro.repo_url_stable e s, Kokoro.pr_stable e s, Kokoro.provider_stable e s,
    Kokoro.slug_stable e s, Kokoro.branch_stable e s,
    Kokoro.base_stable e client s hinv.1, hinv.2.2,
    (Kokoro.base_KInv e client s hinv).2.2⟩

/-- Claim C6 witness: on a fresh object in a GitHub-PR environment the
fetch bound holds, and a second `base` access is a no-op. -/
theorem claim_C6_idempotence_witness :
    (Kokoro.base
        [(KOKORO_GITHUB_PULL_REQUEST_NUMBER, "23"),
         (KOKORO_GITHUB_PULL_REQUEST_URL, "https://github.com/org/repo/pull/23")]
        (fun _ _ => [("base", [("sha", "7450ebe1")])]) KokoroState.fresh).2.fetchCount ≤ 1 ∧
    (Kokoro.pr [] (Kokoro.pr [] KokoroState.fresh).2
       = ((Kokoro.pr [] KokoroState.fresh).1, (Kokoro.pr [] KokoroState.fresh).2)) :=
  ⟨(claim_C6_idempotence
      [(KOKORO_GITHUB_PULL_REQUEST_NUMBER, "23"),
       (KOKORO_GITHUB_PULL_REQUEST_URL, "https://github.com/org/repo/pull/23")]
      (fun _ _ => [("base", [("sha", "7450ebe1")])]) KokoroState.fresh
      Relation.ReflTransGen.refl).2.2.2.2.2.2.2,
   (claim_C6_idempotence [] (fun _ _ => []) KokoroState.fresh
      Relation.ReflTransGen.refl).2.1⟩

/-- Claim C7: pull-request identification.  The GitHub-style PR-number
variable is parsed first and wins whenever it parses, regardless of the
Gerrit change-number variable; otherwise the Gerrit variable decides; if
neither parses the result is absent.  `kokoro_ci_pr` is a total function,
so no error is ever raised. -/
theorem claim_C7_pr_identification : ∀ e : Env,
    (∀ n, parsePyInt (Env.getD e KOKORO_GITHUB_PULL_REQUEST_NUMBER) = some n →
       kokoro_ci_pr e = some n) ∧
    (parsePyInt (Env.getD e KOKORO_GITHUB_PULL_REQUEST_NUMBER) = none →
       kokoro_ci_pr e = parsePyInt (Env.getD e KOKORO_GERRIT_CHANGE_NUMBER)) ∧
    (parsePyInt (Env.getD e KOKORO_GITHUB_PULL_REQUEST_NUMBER) = none →
       parsePyInt (Env.getD e KOKORO_GERRIT_CHANGE_NUMBER) = none →
       kokoro_ci_pr e = none) := by
  intro e
  refine ⟨fun n h => ?_, fun h => ?_, fun h h2 => ?_⟩
  · simp [kokoro_ci_pr, h]
  · simp [kokoro_ci_pr, h]
  · simp [kokoro_ci_pr, h, h2]

/-- Claim C7 witness: with both variables set the GitHub one wins; with
only the Gerrit one set it decides. -/
theorem claim_C7_pr_identification_witness :
    kokoro_ci_pr [(KOKORO_GITHUB_PULL_REQUEST_NUMBER, "23"),
                  (KOKORO_GERRIT_CHANGE_NUMBER, "77")] = some 23 ∧
    kokoro_ci_pr [(KOKORO_GERRIT_CHANGE_NUMBER, "77")]
      = parsePyInt (Env.getD [(KOKORO_GERRIT_CHANGE_NUMBER, "77")] KOKORO_GERRIT_CHANGE_NUMBER) :=
  ⟨(claim_C7_pr_identification
      [(KOKORO_GITHUB_PULL_REQUEST_NUMBER, "23"), (KOKORO_GERRIT_CHANGE_NUMBER, "77")]).1
      23 rfl,
   (claim_C7_pr_identification [(KOKORO_GERRIT_CHANGE_NUMBER, "77")]).2.1 rfl⟩

/-- Claim C8: for every environment and every cache state, `in_pr` equals
`pr is not None`, and the `in_pr` access performs exactly the state
transition of the `pr` access (the state record has no `in_pr` slot, so
`in_pr` is recomputed from `pr` on each access and never cached
independently). -/
theorem claim_C8_in_pr : ∀ (e : Env) (s : KokoroState),
    ((Kokoro.in_pr e s).1 = true ↔ (Kokoro.pr e s).1 ≠ none) ∧
    (Kokoro.in_pr e s).2 = (Kokoro.pr e s).2 := by
  intro e s
  rcases hp : Kokoro.pr e s with ⟨p, s1⟩
  simp [Kokoro.in_pr, hp, Option.isSome_iff_ne_none]

/-- Claim C9: AppVeyor provider resolution.  Accessing `provider` on a
fresh `AppVeyor` object returns a value exactly when the provider
environment variable holds one of github, bitbucket, kiln, vso, gitlab;
any other (or missing) value fails with the `ValueError` carrying the
offending raw value and the list of accepted provider names. -/
theorem claim_C9_appveyor_provider : ∀ e : Env,
    ((∃ p, (AppVeyor.provider e AppVeyorState.fresh).1 = .ok p) ↔
       Env.getD e APPVEYOR_REPO_ENV ∈ ["github", "bitbucket", "kiln", "vso", "gitlab"]) ∧
    (Env.getD e APPVEYOR_REPO_ENV ∉ ["github", "bitbucket", "kiln", "vso", "gitlab"] →
       (AppVeyor.provider e AppVeyorState.fresh).1 =
         .error (AVError.invalidProvider (Env.getD e APPVEYOR_REPO_ENV)
           ["github", "bitbucket", "kiln", "vso", "gitlab"])) := by
  intro e
  rcases hov : AppVeyorRepoProvider.ofValue (Env.getD e APPVEYOR_REPO_ENV) with _ | p
  · have hmem := ofValue_none_iff.1 hov
    constructor
    · constructor
      · rintro ⟨p, hp⟩
        simp [AppVeyor.provider, AppVeyorState.fresh, appveyor_provider, hov] at hp
      · intro hm
        exact absurd hm hmem
    · intro _
      simp [AppVeyor.provider, AppVeyorState.fresh, appveyor_provider, hov,
        AppVeyorRepoProvider.name]
  · have hmem := ofValue_some_mem hov
    constructor
    · exact ⟨fun _ => hmem,
        fun _ => ⟨p, by simp [AppVeyor.provider, AppVeyorState.fresh, appveyor_provider, hov]⟩⟩
    · intro hnm
      exact absurd hmem hnm

/-- Claim C9 witness: the spec scenario `APPVEYOR_REPO_PROVIDER=svn`
fails citing `svn` and the accepted set. -/
theorem claim_C9_appveyor_provider_witness :
    (AppVeyor.provider [(APPVEYOR_REPO_ENV, "svn")] AppVeyorState.fresh).1 =
      .error (AVError.invalidProvider "svn"
        ["github", "bitbucket", "kiln", "vso", "gitlab"]) :=
  (claim_C9_appveyor_provider [(APPVEYOR_REPO_ENV, "svn")]).2 (by decide)

/-- Claim C10: accessing `branch` on a fresh `Kokoro` object forces
provider resolution first: when provider resolution fails, `branch`
propagates exactly that error (which is always of the provider-undetected
or malformed-URL kind); when it succeeds, `branch` returns
`_ci_branch(provider)`, which is absent exactly when the provider is not
Gerrit or the Gerrit-branch variable is unset. -/
theorem claim_C10_branch_forces_provider : ∀ e : Env,
    (∀ err, provider_slug e (repo_url_fn e) = .error err →
       (Kokoro.branch e KokoroState.fresh).1 = .error err ∧
       (err = KError.providerUndetected ∨
        ∃ h pfx, err = KError.malformedRepoURL h pfx)) ∧
    (∀ p sl, provider_slug e (repo_url_fn e) = .ok (p, sl) →
       (Kokoro.branch e KokoroState.fresh).1 = .ok (ci_branch e p) ∧
       ((Kokoro.branch e KokoroState.fresh).1 = .ok none ↔
          (p ≠ .gerrit ∨ Env.get? e KOKORO_GERRIT_BRANCH = none))) := by
  intro e
  constructor
  · intro err herr
    refine ⟨Kokoro.branch_fresh_err herr, ?_⟩
    unfold provider_slug at herr
    split at herr
    · simp at herr
    · split at herr
      · split at herr
        · split at herr
          · simp at herr
          · simp at herr
            exact Or.inr ⟨_, _, herr.symm⟩
        · simp at herr
          exact Or.inl herr.symm
      · simp at herr
        exact Or.inl herr.symm
  · intro p sl hps
    refine ⟨Kokoro.branch_fresh_ok hps, ?_⟩
    rw [Kokoro.branch_fresh_ok hps]
    cases p with
    | gerrit => simp [ci_branch]
    | github => simp [ci_branch]

/-- Claim C10 witness: with an empty environment, `branch` propagates the
provider-undetected error instead of returning an absent value. -/
theorem claim_C10_branch_forces_provider_witness :
    (Kokoro.branch [] KokoroState.fresh).1 = .error KError.providerUndetected ∧
    (KError.providerUndetected = KError.providerUndetected ∨
     ∃ h pfx, KError.providerUndetected = KError.malformedRepoURL h pfx) :=
  (claim_C10_branch_forces_provider []).1 KError.providerUndetected rfl
